import Mathlib

/-!
Shallow embedding of the fullerite NerveUWSGI collector core
(src/fullerite/collector/nerve_uwsgi.go) and the dropwizard base parser
(src/fullerite/dropwizard/base_parser.go).

Modelling conventions:
* Go `float64` values are modelled as `ℚ`.  The embedded code performs no
  floating-point arithmetic: values are only carried through unchanged or
  converted from integers, so the rational model is exact.
* Go maps that are iterated are modelled as association lists
  (`List (String × _)`); iteration order of a Go map is unspecified, the
  list fixes one order.
* A Go runtime panic (failed type assertion, slice index out of range) is
  modelled as the `none` case of an `Option` result.
* Logging is modelled by returning the list of emitted log events where
  the log level is relevant; debug-level progress logging is omitted.
-/

namespace Fullerite

/-- Go values as produced by `json.Unmarshal` into `interface{}`:
numbers (always `float64` from JSON), strings, booleans, null, arrays and
objects.  The `vint` constructor models a Go `int` value, which the parser
code also accepts even though JSON decoding never produces it. -/
inductive GoVal where
  | vfloat (q : ℚ)
  | vint (n : ℤ)
  | vstr (s : String)
  | vbool (b : Bool)
  | vnull
  | varr (xs : List GoVal)
  | vobj (fields : List (String × GoVal))

/-- Look up a key in a decoded JSON object (Go map access `m[k]`). -/
def lookupGo (obj : List (String × GoVal)) (k : String) : Option GoVal :=
  (obj.find? (fun p => p.1 == k)).map Prod.snd

/-- Modelled from the spec: the canonical Metric Record of the `metric`
package (not under src/): name, kind string, 64-bit float value (here `ℚ`)
and string dimensions. -/
structure Metric where
  name : String
  metricType : String
  value : ℚ
  dimensions : List (String × String)
deriving DecidableEq

/-- Modelled from the spec: the Gauge kind constant of the `metric` package. -/
def Gauge : String := "gauge"

/-- Modelled from the spec: the Counter kind constant of the `metric` package. -/
def Counter : String := "counter"

/-- Modelled from the spec: the CumulativeCounter kind constant of the
`metric` package. -/
def CumulativeCounter : String := "cumcounter"

/-- Go map assignment `dims[k] = v` on the dimensions association list:
replaces the value of an existing key, otherwise appends the new pair. -/
def setDim (dims : List (String × String)) (k v : String) :
    List (String × String) :=
  if dims.any (fun p => p.1 == k) then
    dims.map (fun p => if p.1 == k then (k, v) else p)
  else dims ++ [(k, v)]

/-- Modelled from the spec: `metric.New` builds a record with the given
name, a default Gauge kind, zero value and no dimensions. -/
def metricNew (name : String) : Metric :=
  { name := name, metricType := Gauge, value := 0, dimensions := [] }

/-- Modelled from the spec: `Metric.AddDimension` sets one dimension. -/
def addDimension (m : Metric) (k v : String) : Metric :=
  { m with dimensions := setDim m.dimensions k v }

/-- Modelled from the spec: `metric.WithValue` builds a record with the
given name and value. -/
def withValue (name : String) (value : ℚ) : Metric :=
  { metricNew name with value := value }

/-- Modelled from the spec: `metric.AddToAll` stamps every dimension of
`dims` onto every record of the batch. -/
def addToAll (ms : List Metric) (dims : List (String × String)) :
    List Metric :=
  ms.map (fun m => dims.foldl (fun acc p => addDimension acc p.1 p.2) m)

/-- Read one dimension of a record. -/
def getDim (m : Metric) (k : String) : Option String :=
  (m.dimensions.find? (fun p => p.1 == k)).map Prod.snd

/-! ### String helpers (Go `strings` / `regexp` operations used by the code) -/

/-- Go `strings.Contains s sub`: some contiguous substring of `s` is `sub`. -/
def goContains (s sub : String) : Bool :=
  (List.range (s.toList.length + 1)).any
    (fun i => sub.toList.isPrefixOf (s.toList.drop i))

/-- Go `strings.Index s pre == 0`: `s` starts with `pre`. -/
def goStartsWith (s pre : String) : Bool :=
  pre.toList.isPrefixOf s.toList

/-- Whether the regex `m[0-9]+_rate` matches starting at the head of this
character list (the rest of the list is unconstrained, as for an
unanchored `regexp.MatchString`). -/
def mRateAtHead (cs : List Char) : Bool :=
  match cs with
  | 'm' :: rest =>
      decide (rest.takeWhile Char.isDigit ≠ []) &&
        "_rate".toList.isPrefixOf (rest.dropWhile Char.isDigit)
  | _ => false

/-- Go `regexp.MatchString "m[0-9]+_rate" s`: unanchored, so the pattern
may match anywhere inside `s`. -/
def matchMRate (s : String) : Bool :=
  (List.range (s.toList.length + 1)).any (fun i => mRateAtHead (s.toList.drop i))

/-- ASCII model of Go `strings.Title`: upper-case every letter that starts
a word, i.e. whose previous character is not a letter.  The spec's design
notes fix the ASCII-only capitalization behaviour. -/
def goTitleAux : Bool → List Char → List Char
  | _, [] => []
  | prevIsLetter, c :: rest =>
      (if prevIsLetter then c else c.toUpper) :: goTitleAux c.isAlpha rest

/-- ASCII model of Go `strings.Title`. -/
def goTitle (s : String) : String :=
  ⟨goTitleAux false s.toList⟩

/-! ### Collector: blacklist check and schema dispatch -/

/-- Embeds `serviceInWorkersStatsBlacklist` (nerve_uwsgi.go lines 202-209):
plain equality scan of the configured blacklist. -/
def serviceInWorkersStatsBlacklist (workersStatsBlacklist : List String)
    (service : String) : Bool :=
  workersStatsBlacklist.any (fun s => s == service)

/-- Embeds `serviceInWhitelist` (nerve_uwsgi.go lines 191-198). -/
def serviceInWhitelist (servicesWhitelist : List String)
    (service : String) : Bool :=
  servicesWhitelist.any (fun s => s == service)

/-- The three normalization strategies of `dropwizard.Parse`. -/
inductive Strategy where
  | uwsgi
  | java
  | legacy
deriving DecidableEq

/-- Embeds the dispatch of `dropwizard.Parse` (base_parser.go lines 80-90):
which parser is constructed for a schema tag. -/
def parseDispatch (schemaVer : String) : Strategy :=
  if schemaVer == "uwsgi.1.0" || schemaVer == "uwsgi.1.1" then .uwsgi
  else if schemaVer == "java-1.1" then .java
  else .legacy

/-! ### Dropwizard base parser -/

/-- Whether a decoded value is numeric in the sense of
`createMetricFromDatam`: a Go `float64` or `int`. -/
def isNumericGoVal : GoVal → Bool
  | .vfloat _ => true
  | .vint _ => true
  | _ => false

/-- The 64-bit float a numeric leaf coerces to (`float64` identity, or
Go `float64(int)`); zero on non-numeric values, which never produce a
record. -/
def goValToFloat : GoVal → ℚ
  | .vfloat q => q
  | .vint n => (n : ℚ)
  | _ => 0

/-- Embeds `createMetricFromDatam` (base_parser.go lines 151-168): builds
the record, stamps the `rollup` dimension, and accepts it only when the
value has a numeric base. -/
def createMetricFromDatam (rollup : String) (value : GoVal)
    (metricName metricType : String) : Metric × Bool :=
  let m := addDimension { metricNew metricName with metricType := metricType }
    "rollup" rollup
  match value with
  | .vfloat q => ({ m with value := q }, true)
  | .vint n => ({ m with value := (n : ℚ) }, true)
  | _ => (m, false)

/-- Loop body of `metricFromMap` (base_parser.go lines 104-139), carrying
the accumulated records and the dimension map collected from `dimensions`
entries.  `none` models the runtime panic of the unchecked type assertion
`value.(map[string]interface{})` when a `dimensions` entry is not an
object. -/
def mfmLoop (ccEnabled : Bool) (metricName metricType : String) :
    List (String × GoVal) → List Metric → List (String × String) →
    Option (List Metric × List (String × String))
  | [], results, dims => some (results, dims)
  | (rollup, value) :: rest, results, dims =>
    if rollup == "dimensions" then
      match value with
      | .vobj fields =>
          let dims := fields.foldl
            (fun d p =>
              match p.2 with
              | .vstr s => setDim d p.1 s
              | _ => setDim d p.1 "null") dims
          mfmLoop ccEnabled metricName metricType rest results dims
      | _ => none
    else
      if ccEnabled && matchMRate rollup then
        mfmLoop ccEnabled metricName metricType rest results dims
      else
        let mName := if ccEnabled && rollup != "value" then
            metricName ++ "." ++ rollup else metricName
        let mType := if ccEnabled && rollup != "value" && rollup == "count" then
            CumulativeCounter else metricType
        match createMetricFromDatam rollup value mName mType with
        | (m, true) =>
            mfmLoop ccEnabled metricName metricType rest (results ++ [m]) dims
        | (_, false) =>
            mfmLoop ccEnabled metricName metricType rest results dims

/-- Embeds `metricFromMap` (base_parser.go lines 98-143): iterate the
rollup map, then stamp the collected dimensions onto every produced
record.  `none` models a runtime panic. -/
def metricFromMap (ccEnabled : Bool) (metricMap : List (String × GoVal))
    (metricName metricType : String) : Option (List Metric) :=
  (mfmLoop ccEnabled metricName metricType metricMap [] []).map
    (fun r => addToAll r.1 r.2)

/-- Modelled from the spec: the shared per-family parser
(`parseMapOfMap` of the concrete strategies, not under src/) runs the one
core algorithm `metricFromMap` on every metric of the family and
concatenates the results. -/
def parseMapOfMap (ccEnabled : Bool) (metricType : String) :
    List (String × List (String × GoVal)) → Option (List Metric)
  | [] => some []
  | (name, mm) :: rest => do
      let ms ← metricFromMap ccEnabled mm name metricType
      let rs ← parseMapOfMap ccEnabled metricType rest
      pure (ms ++ rs)

/-- Embeds the `Format` document shape (base_parser.go lines 62-69):
five families, each mapping a metric name to its rollup map. -/
structure Format where
  gauges : List (String × List (String × GoVal))
  counters : List (String × List (String × GoVal))
  histograms : List (String × List (String × GoVal))
  meters : List (String × List (String × GoVal))
  timers : List (String × List (String × GoVal))

/-- Embeds `extractParsedMetric` (base_parser.go lines 170-186): parse the
five families with their default kinds, stamping the family `type`
dimension on each batch unless cumulative-counter mode is enabled. -/
def extractParsedMetric (ccEnabled : Bool) (parsed : Format) :
    Option (List Metric) := do
  let stamp := fun (ms : List Metric) (typeDimVal : String) =>
    if ccEnabled then ms else addToAll ms [("type", typeDimVal)]
  let g ← parseMapOfMap ccEnabled Gauge parsed.gauges
  let c ← parseMapOfMap ccEnabled Counter parsed.counters
  let h ← parseMapOfMap ccEnabled Gauge parsed.histograms
  let me ← parseMapOfMap ccEnabled Gauge parsed.meters
  let t ← parseMapOfMap ccEnabled Gauge parsed.timers
  pure (stamp g "gauge" ++ stamp c "counter" ++ stamp h "histogram" ++
    stamp me "meter" ++ stamp t "timer")

/-! ### Collector: worker-stats parsing, secondary fetch and merge -/

/-- Go slice assignment `xs[k] = v`: `none` models the index-out-of-range
panic. -/
def setIdx : List Metric → Nat → Metric → Option (List Metric)
  | [], _, _ => none
  | _ :: rest, 0, v => some (v :: rest)
  | x :: rest, k + 1, v => (setIdx rest k v).map (fun l => x :: l)

/-- The merge loop of `queryService` (nerve_uwsgi.go lines 135-137):
`for k, v := range uwsgiWorkerStatsMetrics \x7b metrics[k] = v \x7d`, ranging
over the worker-stats slice and assigning into the primary slice at the
same index.  `k` is the current range index. -/
def mergeLoop (metrics : List Metric) (workerStats : List Metric)
    (k : Nat) : Option (List Metric) :=
  match workerStats with
  | [] => some metrics
  | v :: rest =>
      match setIdx metrics k v with
      | none => none
      | some updated => mergeLoop updated rest (k + 1)

/-- The whole worker-stats merge of `queryService`: runs the range loop
from index 0. -/
def mergeWorkersStats (metrics workerStats : List Metric) :
    Option (List Metric) :=
  mergeLoop metrics workerStats 0

/-- Registry lookup (Go map read with `exists` flag). -/
def regLookup (r : List (String × ℤ)) (k : String) : Option ℤ :=
  (r.find? (fun p => p.1 == k)).map Prod.snd

/-- Registry write (Go map assignment). -/
def regSet : List (String × ℤ) → String → ℤ → List (String × ℤ)
  | [], k, v => [(k, v)]
  | (k1, v1) :: rest, k, v =>
      if k1 == k then (k, v) :: rest else (k1, v1) :: regSet rest k v

/-- One worker's bookkeeping in `parseUWSGIWorkersStats` (nerve_uwsgi.go
lines 263-267): seed the counter with 0 when absent, then increment it. -/
def regIncr (r : List (String × ℤ)) (name : String) : List (String × ℤ) :=
  regSet r name ((regLookup r name).getD 0 + 1)

/-- The worker loop of `parseUWSGIWorkersStats` (nerve_uwsgi.go lines
250-268): each element must be an object with a string `status`; a status
starting with `sig` collapses to `sig`; the title-cased status suffixed
with `Workers` is counted. -/
def countWorkersLoop : List GoVal → List (String × ℤ) →
    Except String (List (String × ℤ))
  | [], registry => .ok registry
  | worker :: rest, registry =>
      match worker with
      | .vobj workerMap =>
          match lookupGo workerMap "status" with
          | some (.vstr status) =>
              let status := if goStartsWith status "sig" then "sig" else status
              countWorkersLoop rest (regIncr registry (goTitle status ++ "Workers"))
          | _ => .error "status not found or not a string"
      | _ => .error "worker record is not a map"

/-- Embeds `parseUWSGIWorkersStats` (nerve_uwsgi.go lines 229-273), taking
the decoded JSON body.  A non-object body models the `json.Unmarshal`
error; the registry is pre-seeded with `IdleWorkers = 0` and
`BusyWorkers = 1` before counting, and the final registry is rendered as
one record per counter. -/
def parseUWSGIWorkersStats (body : GoVal) : List Metric × Option String :=
  match body with
  | .vobj result =>
      match lookupGo result "workers" with
      | some (.varr workers) =>
          match countWorkersLoop workers [("IdleWorkers", 0), ("BusyWorkers", 1)] with
          | .ok registry =>
              (registry.map (fun p => withValue p.1 (p.2 : ℚ)), none)
          | .error e => ([], some e)
      | _ => ([], some "workers field not found or not an array")
  | _ => ([], some "json unmarshal error")

/-- The counter name one worker element's status is tallied under
(nerve_uwsgi.go lines 259-262): a status starting with `sig` collapses to
`sig`, then the title-cased status is suffixed with `Workers`. -/
def statusCounterName (status : String) : String :=
  goTitle (if goStartsWith status "sig" then "sig" else status) ++ "Workers"

/-- A well-formed worker element carrying the given status string. -/
def mkWorker (status : String) : GoVal :=
  GoVal.vobj [("status", GoVal.vstr status)]

/-- The value of the first record with a given name. -/
def lookupMetricValue (ms : List Metric) (name : String) : Option ℚ :=
  (ms.find? (fun m => m.name == name)).map Metric.value

/-- Log severities used by the collector. -/
inductive LogLevel where
  | debug
  | info
  | warn
deriving DecidableEq

/-- Embeds `tryFetchUWSGIWorkersStats` (nerve_uwsgi.go lines 212-226).
The input is the outcome of `queryEndpoint` on the secondary endpoint: a
transport or HTTP error, or the decoded response body.  Every failure
returns `none` after logging at info level; debug logging is omitted. -/
def tryFetchUWSGIWorkersStats (queryResult : Except String GoVal) :
    Option (List Metric) × List (LogLevel × String) :=
  match queryResult with
  | .error e => (none, [(.info, "Failed to query endpoint: " ++ e)])
  | .ok body =>
      match parseUWSGIWorkersStats body with
      | (_, some e) => (none, [(.info, "No workers stats retreived: " ++ e)])
      | (ms, none) => (some ms, [])

/-- Whether the secondary worker-stats fetch fails on this outcome of the
secondary `queryEndpoint` call: a transport or HTTP error, or a body on
which `parseUWSGIWorkersStats` reports an error. -/
def secondaryFetchFails (queryResult : Except String GoVal) : Bool :=
  match queryResult with
  | .error _ => true
  | .ok body => (parseUWSGIWorkersStats body).2.isSome

/-- Embeds the tail of `queryService` (nerve_uwsgi.go lines 128-151) after
the primary parse: optionally merge the worker-stats result, stamp the
`service` and `port` dimensions on the batch, and emit every record that
passes the dimension blacklist.  `keep` abstracts
`!n.ContainsBlacklistedDimension(m.Dimensions)` (modelled from the spec:
global dimension blacklist applied at emission time, code not under
src/); `none` models a panic in the merge loop. -/
def queryServiceEmit (metrics : List Metric) (runSecondary : Bool)
    (workerStats : Option (List Metric)) (serviceName : String) (port : ℤ)
    (keep : Metric → Bool) : Option (List Metric) :=
  let merged :=
    if runSecondary then
      match workerStats with
      | some ws => mergeWorkersStats metrics ws
      | none => some metrics
    else some metrics
  match merged with
  | none => none
  | some ms =>
      let tagged := addToAll ms [("service", serviceName), ("port", toString port)]
      some (tagged.filter keep)

/-! ## Theorems -/

/-- Pushing a fixed head past the merge loop: assigning at indices
shifted by one over `x :: xs` leaves `x` in place. -/
theorem mergeLoop_cons (ws : List Metric) : ∀ (x : Metric) (xs : List Metric)
    (k : Nat), mergeLoop (x :: xs) ws (k + 1) =
      (mergeLoop xs ws k).map (fun l => x :: l) := by
  induction ws with
  | nil => intro x xs k; rfl
  | cons v rest ih =>
      intro x xs k
      simp only [mergeLoop, setIdx]
      cases h : setIdx xs k v with
      | none => simp [h]
      | some u => simp [h, ih]

/-- The merge of `queryService` on cons cells peels one element from each
side. -/
theorem mergeWorkersStats_cons (m v : Metric) (mr rest : List Metric) :
    mergeWorkersStats (m :: mr) (v :: rest) =
      (mergeWorkersStats mr rest).map (fun l => v :: l) := by
  simp only [mergeWorkersStats, mergeLoop, setIdx]
  exact mergeLoop_cons rest v mr 0

/-- C9: the worker-stats merge loop of `queryService` assigns each
secondary record into the primary slice at the same integer index: when
the secondary batch is longer than the primary batch the assignment
indexes past the end of the primary slice (modelled as `none`, the
runtime index-out-of-range panic), and otherwise the first
`len(secondary)` primary records are replaced by position, regardless of
their names. -/
theorem c9_merge_assigns_by_index (metrics workerStats : List Metric) :
    (metrics.length < workerStats.length →
        mergeWorkersStats metrics workerStats = none) ∧
    (workerStats.length ≤ metrics.length →
        mergeWorkersStats metrics workerStats =
          some (workerStats ++ metrics.drop workerStats.length)) := by
  induction workerStats generalizing metrics with
  | nil =>
      refine ⟨fun h => absurd h (by simp), fun _ => ?_⟩
      simp [mergeWorkersStats, mergeLoop]
  | cons v rest ih =>
      cases metrics with
      | nil =>
          refine ⟨fun _ => rfl, fun h => ?_⟩
          simp at h
      | cons m mr =>
          rw [mergeWorkersStats_cons]
          refine ⟨fun h => ?_, fun h => ?_⟩
          · rw [(ih mr).1 (by simpa using h)]; rfl
          · rw [(ih mr).2 (by simpa using h)]
            simp

/-- Witness for C9 at concrete batches: a secondary batch of two records
against a primary batch of one panics, and a one-record secondary batch
against a two-record primary batch overwrites the first primary record by
position. -/
theorem c9_merge_assigns_by_index_witness :
    mergeWorkersStats [withValue "hits" 3]
        [withValue "IdleWorkers" 2, withValue "BusyWorkers" 1] = none ∧
    mergeWorkersStats [withValue "hits" 3, withValue "latency" 9]
        [withValue "IdleWorkers" 2] =
      some ([withValue "IdleWorkers" 2] ++
        [withValue "hits" 3, withValue "latency" 9].drop 1) := by
  refine ⟨(c9_merge_assigns_by_index _ _).1 (by decide),
    (c9_merge_assigns_by_index _ _).2 (by decide)⟩

/-- C1: behaviour of the worker-stats merge of `queryService` at the
failing inputs.  The merge is positional, not keyed by name: the primary
record `hits` is replaced by the secondary record `IdleWorkers` even
though their names differ, and a secondary batch longer than the primary
batch panics (modelled as `none`) instead of merging. -/
theorem c1_merge_not_by_name :
    mergeWorkersStats [withValue "hits" 3, withValue "latency" 9]
        [withValue "IdleWorkers" 2] =
      some [withValue "IdleWorkers" 2, withValue "latency" 9] ∧
    mergeWorkersStats [withValue "hits" 3]
        [withValue "IdleWorkers" 2, withValue "BusyWorkers" 1] = none := by
  exact ⟨rfl, rfl⟩

/-- C2: behaviour of `serviceInWorkersStatsBlacklist` at the failing
inputs.  The check is plain string equality with no wildcard handling:
the pattern `abc*` matches neither `abc123` nor `abc` (contradicting the
claimed prefix semantics) and matches only the literal service name
`abc*`. -/
theorem c2_blacklist_is_exact_match :
    serviceInWorkersStatsBlacklist ["abc*"] "abc123" = false ∧
    serviceInWorkersStatsBlacklist ["abc*"] "abc" = false ∧
    serviceInWorkersStatsBlacklist ["abc*"] "xabc" = false ∧
    serviceInWorkersStatsBlacklist ["abc*"] "abc*" = true := by decide

/-- C3 counterexample: the schema tag `uwsgi.2.0` contains the substring
`uwsgi`, yet `parseDispatch` selects the legacy strategy for it, not the
uwsgi strategy — refuting the claim that the uwsgi strategy is selected
exactly when the tag contains `uwsgi`. -/
theorem c3_contains_uwsgi_but_legacy :
    goContains "uwsgi.2.0" "uwsgi" = true ∧
    parseDispatch "uwsgi.2.0" ≠ Strategy.uwsgi ∧
    parseDispatch "uwsgi.2.0" = Strategy.legacy := by decide

/-- C3 amended: the parser dispatch selects the uwsgi strategy exactly
when the tag equals `uwsgi.1.0` or `uwsgi.1.1`, the java strategy exactly
when the tag equals `java-1.1`, and the legacy strategy otherwise. -/
theorem c3_dispatch_exact_versions (schemaVer : String) :
    (parseDispatch schemaVer = Strategy.uwsgi ↔
        schemaVer = "uwsgi.1.0" ∨ schemaVer = "uwsgi.1.1") ∧
    (parseDispatch schemaVer = Strategy.java ↔ schemaVer = "java-1.1") ∧
    (parseDispatch schemaVer = Strategy.legacy ↔
        ¬(schemaVer = "uwsgi.1.0" ∨ schemaVer = "uwsgi.1.1" ∨
          schemaVer = "java-1.1")) := by
  unfold parseDispatch
  split_ifs with h1 h2
  · simp only [Bool.or_eq_true, beq_iff_eq] at h1
    rcases h1 with h | h <;> subst h <;> decide
  · simp only [beq_iff_eq] at h2
    subst h2; decide
  · have h3 : ¬(schemaVer = "uwsgi.1.0" ∨ schemaVer = "uwsgi.1.1") := by
      simpa using h1
    obtain ⟨hA, hB⟩ := not_or.mp h3
    have hC : schemaVer ≠ "java-1.1" := by simpa using h2
    simp [hA, hB, hC]

/-- Stamping no dimensions leaves a batch unchanged. -/
theorem addToAll_nil (ms : List Metric) : addToAll ms [] = ms := by
  simp [addToAll]

/-- `createMetricFromDatam` accepts a value exactly when it is numeric. -/
theorem createMetricFromDatam_ok (rollup : String) (value : GoVal)
    (metricName metricType : String) :
    (createMetricFromDatam rollup value metricName metricType).2 =
      isNumericGoVal value := by
  cases value <;> rfl

/-- Closed form of the `metricFromMap` loop with cumulative-counter mode
off and no `dimensions` entry: one record per numeric leaf, appended in
order. -/
theorem mfmLoop_no_ccEnabled (metricName metricType : String) :
    ∀ (mm : List (String × GoVal)) (acc : List Metric)
      (dims : List (String × String)),
      "dimensions" ∉ mm.map Prod.fst →
      mfmLoop false metricName metricType mm acc dims =
        some (acc ++ (mm.filter (fun p => isNumericGoVal p.2)).map
          (fun p => (createMetricFromDatam p.1 p.2 metricName metricType).1),
          dims)
  | [], acc, dims, _ => by simp [mfmLoop]
  | (r, v) :: rest, acc, dims, h => by
      have hr : ¬(r = "dimensions") := by
        intro hre
        exact h (by simp [hre])
      have hrest : "dimensions" ∉ rest.map Prod.fst := by
        intro hm
        exact h (by simp [hm])
      have step := mfmLoop_no_ccEnabled metricName metricType rest
      cases v <;>
        simp [mfmLoop, hr, createMetricFromDatam, isNumericGoVal,
          step _ _ hrest, step (acc ++ [_]) _ hrest]

/-- C6: for every rollup leaf, `createMetricFromDatam` produces a record
if and only if the leaf value is numeric (a float or integer), and the
produced record's value is the leaf coerced to a 64-bit float; moreover,
over a whole rollup map without a `dimensions` entry, `metricFromMap`
(cumulative-counter mode off) produces exactly one record per numeric
leaf — non-numeric leaves are skipped silently, with no error. -/
theorem c6_record_iff_numeric (rollup : String) (value : GoVal)
    (metricName metricType : String) :
    ((createMetricFromDatam rollup value metricName metricType).2 = true ↔
      isNumericGoVal value = true) ∧
    (isNumericGoVal value = true →
      (createMetricFromDatam rollup value metricName metricType).1.value =
        goValToFloat value) ∧
    (∀ (mm : List (String × GoVal)) (n t : String),
      "dimensions" ∉ mm.map Prod.fst →
      metricFromMap false mm n t =
        some ((mm.filter (fun p => isNumericGoVal p.2)).map
          (fun p => (createMetricFromDatam p.1 p.2 n t).1))) := by
  refine ⟨by rw [createMetricFromDatam_ok], fun hv => ?_, fun mm n t h => ?_⟩
  · cases value <;> simp_all [createMetricFromDatam, goValToFloat,
      isNumericGoVal]
  · rw [metricFromMap, mfmLoop_no_ccEnabled n t mm [] [] h]
    simp [addToAll_nil]

/-- Witness for C6 at concrete leaves: the numeric leaf `10` produces a
record with value `10`, the string leaf is skipped, and a two-leaf map
yields exactly the numeric leaf's record. -/
theorem c6_record_iff_numeric_witness :
    ((createMetricFromDatam "p98" (GoVal.vfloat 10) "foo" "gauge").2 = true ↔
      isNumericGoVal (GoVal.vfloat 10) = true) ∧
    ((createMetricFromDatam "p98" (GoVal.vfloat 10) "foo" "gauge").1.value =
      goValToFloat (GoVal.vfloat 10)) ∧
    metricFromMap false
        [("p98", GoVal.vfloat 10), ("units", GoVal.vstr "ms")] "foo" "gauge" =
      some (([("p98", GoVal.vfloat 10), ("units", GoVal.vstr "ms")].filter
          (fun p => isNumericGoVal p.2)).map
        (fun p => (createMetricFromDatam p.1 p.2 "foo" "gauge").1)) := by
  refine ⟨(c6_record_iff_numeric "p98" (GoVal.vfloat 10) "foo" "gauge").1,
    (c6_record_iff_numeric "p98" (GoVal.vfloat 10) "foo" "gauge").2.1 (by decide),
    (c6_record_iff_numeric "p98" (GoVal.vfloat 10) "foo" "gauge").2.2
      [("p98", GoVal.vfloat 10), ("units", GoVal.vstr "ms")] "foo" "gauge"
      (by decide)⟩

/-- The `metricFromMap` loop panics whenever the list still holds a
`dimensions` entry whose value is not an object. -/
theorem mfmLoop_dims_panic (ccEnabled : Bool) (metricName metricType : String)
    (v : GoVal) (hobj : ∀ fields, v ≠ GoVal.vobj fields) :
    ∀ (mm : List (String × GoVal)) (acc : List Metric)
      (dims : List (String × String)),
      ("dimensions", v) ∈ mm →
      mfmLoop ccEnabled metricName metricType mm acc dims = none
  | [], _, _, hv => by simp at hv
  | (r, w) :: rest, acc, dims, hv => by
      rcases List.mem_cons.mp hv with hEq | hMem
      · obtain ⟨hr, hw⟩ := Prod.mk.injEq .. ▸ hEq
        subst hr
        cases w with
        | vobj fields => exact absurd rfl (hw ▸ hobj fields)
        | vfloat q => simp [mfmLoop]
        | vint n => simp [mfmLoop]
        | vstr s => simp [mfmLoop]
        | vbool b => simp [mfmLoop]
        | vnull => simp [mfmLoop]
        | varr xs => simp [mfmLoop]
      · have step := fun acc dims =>
          mfmLoop_dims_panic ccEnabled metricName metricType v hobj rest
            acc dims hMem
        by_cases hr : r = "dimensions"
        · subst hr
          cases w <;> simp [mfmLoop, step]
        · cases w <;>
            simp [mfmLoop, hr, createMetricFromDatam, step]

/-- C10: a `dimensions` entry whose value is a non-object JSON value
makes `metricFromMap` panic at runtime (the unchecked type assertion,
modelled as `none`) instead of skipping the entry or returning an
error. -/
theorem c10_dimensions_assertion_panics (ccEnabled : Bool)
    (metricMap : List (String × GoVal)) (metricName metricType : String)
    (v : GoVal) (hv : ("dimensions", v) ∈ metricMap)
    (hobj : ∀ fields, v ≠ GoVal.vobj fields) :
    metricFromMap ccEnabled metricMap metricName metricType = none := by
  rw [metricFromMap,
    mfmLoop_dims_panic ccEnabled metricName metricType v hobj metricMap [] [] hv]
  rfl

/-- Witness for C10: a `dimensions` entry holding the string `x` panics
the family parse. -/
theorem c10_dimensions_assertion_panics_witness :
    metricFromMap false
        [("count", GoVal.vfloat 3), ("dimensions", GoVal.vstr "x")]
        "foo" "counter" = none :=
  c10_dimensions_assertion_panics false
    [("count", GoVal.vfloat 3), ("dimensions", GoVal.vstr "x")]
    "foo" "counter" (GoVal.vstr "x") (by simp)
    (fun fields h => GoVal.noConfusion h)

/-- Scanning a digit run followed by `_rate` takes exactly the digits. -/
theorem takeWhile_digit_run (cs : List Char) :
    ∀ ds : List Char, (∀ c ∈ ds, c.isDigit = true) →
      (ds ++ '_' :: cs).takeWhile Char.isDigit = ds ∧
      (ds ++ '_' :: cs).dropWhile Char.isDigit = '_' :: cs := by
  intro ds
  induction ds with
  | nil =>
      intro _
      have hu : ('_' : Char).isDigit = false := rfl
      simp [List.takeWhile_cons, List.dropWhile_cons, hu]
  | cons c rest ih =>
      intro h
      have hc : c.isDigit = true := h c (by simp)
      have hr := ih (fun x hx => h x (by simp [hx]))
      simp [List.takeWhile_cons, List.dropWhile_cons, hc, hr.1, hr.2]

/-- The regex `m[0-9]+_rate` matches at the head of a literal
`m<digits>_rate` character list. -/
theorem mRateAtHead_full (ds : List Char) (hne : ds ≠ [])
    (hd : ∀ c ∈ ds, c.isDigit = true) :
    mRateAtHead ('m' :: (ds ++ "_rate".toList)) = true := by
  have hsh : "_rate".toList = '_' :: "rate".toList := rfl
  have htk := takeWhile_digit_run "rate".toList ds hd
  simp only [mRateAtHead, hsh, htk.1, htk.2, Bool.and_eq_true, decide_eq_true_eq]
  exact ⟨hne, by simp [ List.isPrefixOf_iff_prefix]⟩

/-- A rollup name that fully matches `m<digits>_rate` is matched by the
unanchored `regexp.MatchString` check. -/
theorem matchMRate_full (r : String) (ds : List Char)
    (h : r.toList = 'm' :: (ds ++ "_rate".toList)) (hne : ds ≠ [])
    (hd : ∀ c ∈ ds, c.isDigit = true) : matchMRate r = true := by
  rw [matchMRate, List.any_eq_true]
  refine ⟨0, by simp, ?_⟩
  rw [List.drop_zero, h]
  exact mRateAtHead_full ds hne hd

/-- C5: with cumulative-counter mode active, the timer metric `foo` with
rollups `count: 5, m1_rate: 0.2, p98: 10` produces exactly the records
`foo.count` (kind CumulativeCounter, value 5) and `foo.p98` (kind Gauge,
value 10); in general every rollup fully matching `m<digits>_rate` is
dropped, every remaining non-`value` rollup is renamed to
`<metric-name>.<rollup-name>`, and the rollup named exactly `count` gets
kind CumulativeCounter. -/
theorem c5_cc_rollup_rewrite :
    (metricFromMap true
        [("count", GoVal.vfloat 5), ("m1_rate", GoVal.vfloat (1/5)),
          ("p98", GoVal.vfloat 10)] "foo" Gauge =
      some [{ name := "foo.count", metricType := CumulativeCounter, value := 5,
              dimensions := [("rollup", "count")] },
            { name := "foo.p98", metricType := Gauge, value := 10,
              dimensions := [("rollup", "p98")] }]) ∧
    (∀ (r : String) (ds : List Char) (v : GoVal)
        (rest : List (String × GoVal)) (n t : String),
      r.toList = 'm' :: (ds ++ "_rate".toList) → ds ≠ [] →
      (∀ c ∈ ds, c.isDigit = true) →
      metricFromMap true ((r, v) :: rest) n t = metricFromMap true rest n t) ∧
    (∀ (r : String) (v : GoVal) (n t : String),
      r ≠ "value" → r ≠ "dimensions" → matchMRate r = false →
      isNumericGoVal v = true →
      metricFromMap true [(r, v)] n t =
        some [{ name := n ++ "." ++ r,
                metricType := if r = "count" then CumulativeCounter else t,
                value := goValToFloat v,
                dimensions := [("rollup", r)] }]) := by
  refine ⟨by decide, fun r ds v rest n t h hne hd => ?_,
    fun r v n t hval hdim hmatch hnum => ?_⟩
  · have hrd : ¬(r = "dimensions") := by
      intro he
      subst he
      have h2 : 'd' = 'm' := by
        have h3 : "dimensions".toList =
            'd' :: ('i' :: 'm' :: 'e' :: 'n' :: 's' :: 'i' :: 'o' :: 'n' ::
              's' :: []) := rfl
        rw [h3] at h
        exact (List.cons_eq_cons.mp h).1
      exact absurd h2 (by decide)
    rw [metricFromMap, metricFromMap]
    have hstep : mfmLoop true n t ((r, v) :: rest) [] [] =
        mfmLoop true n t rest [] [] := by
      simp [mfmLoop, hrd, matchMRate_full r ds h hne hd]
    rw [hstep]
  · cases v <;> simp_all [metricFromMap, mfmLoop, createMetricFromDatam,
      isNumericGoVal, goValToFloat, setDim, addToAll, addDimension, metricNew]

/-- Witness for C5: the rollup `m15_rate` is dropped, and the rollup
`p99` with integer value 7 is renamed to `foo.p99` keeping the family
default kind. -/
theorem c5_cc_rollup_rewrite_witness :
    metricFromMap true [("m15_rate", GoVal.vfloat 1)] "foo" Gauge =
      metricFromMap true [] "foo" Gauge ∧
    metricFromMap true [("p99", GoVal.vint 7)] "foo" Gauge =
      some [{ name := "foo" ++ "." ++ "p99",
              metricType := if "p99" = "count" then CumulativeCounter else Gauge,
              value := goValToFloat (GoVal.vint 7),
              dimensions := [("rollup", "p99")] }] :=
  ⟨c5_cc_rollup_rewrite.2.1 "m15_rate" ['1', '5'] (GoVal.vfloat 1) []
      "foo" Gauge (by decide) (by decide) (by decide),
    c5_cc_rollup_rewrite.2.2 "p99" (GoVal.vint 7) "foo" Gauge (by decide)
      (by decide) (by decide) (by decide)⟩

/-- Setting a dimension makes it the value found for its key. -/
theorem find?_setDim (k v : String) (dims : List (String × String)) :
    (setDim dims k v).find? (fun p => p.1 == k) = some (k, v) := by
  rw [setDim]
  by_cases h : dims.any (fun p => p.1 == k) = true
  · rw [if_pos h]
    induction dims with
    | nil => simp at h
    | cons p rest ih =>
        by_cases hp : p.1 = k
        · simp [List.find?_cons, hp]
        · have htail : rest.any (fun q => q.1 == k) = true := by
            rcases List.any_eq_true.mp h with ⟨x, hx, hxk⟩
            rcases List.mem_cons.mp hx with rfl | hxr
            · exact absurd (by simpa using hxk) hp
            · exact List.any_eq_true.mpr ⟨x, hxr, hxk⟩
          simpa [List.find?_cons, hp] using ih htail
  · rw [if_neg h]
    have hnone : dims.find? (fun p => p.1 == k) = none := by
      rw [List.find?_eq_none]
      intro x hx
      simp only [Bool.not_eq_true]
      by_contra hxk
      exact h (List.any_eq_true.mpr ⟨x, hx, by simpa using hxk⟩)
    rw [List.find?_append, hnone]
    simp

/-- Reading back a dimension just set on a record. -/
theorem getDim_addDimension (m : Metric) (k v : String) :
    getDim (addDimension m k v) k = some v := by
  rw [getDim, addDimension]
  simp [find?_setDim]

/-- Every record stamped with a single dimension carries it. -/
theorem getDim_addToAll (ms : List Metric) (k v : String) (m : Metric)
    (hm : m ∈ addToAll ms [(k, v)]) : getDim m k = some v := by
  rw [addToAll] at hm
  rcases List.mem_map.mp hm with ⟨m0, _, rfl⟩
  simpa using getDim_addDimension m0 k v

/-- C4 counterexample: with cumulative-counter mode active,
`extractParsedMetric` emits the gauge record `foo` with no `type`
dimension at all — refuting the claim that gauge, counter and histogram
records still receive their `type` dimension when the mode is active. -/
theorem c4_gauge_untyped_under_cc :
    extractParsedMetric true
        { gauges := [("foo", [("value", GoVal.vfloat 1)])], counters := [],
          histograms := [], meters := [], timers := [] } =
      some [{ name := "foo", metricType := Gauge, value := 1,
              dimensions := [("rollup", "value")] }] ∧
    getDim { name := "foo", metricType := Gauge, value := 1,
             dimensions := [("rollup", "value")] } "type" = none := by
  exact ⟨rfl, rfl⟩

/-- C4 amended: when cumulative-counter mode is inactive the output is
exactly the concatenation of the five families' record lists, each list
stamped with the `type` dimension naming its own family — so every
emitted record carries the `type` of the family it came from; when the
mode is active the `type` stamp is skipped for all five families, the
output being exactly the concatenation of the families' unstamped record
lists. -/
theorem c4_type_stamp_all_or_nothing (ccEnabled : Bool) (parsed : Format)
    (ms : List Metric)
    (h : extractParsedMetric ccEnabled parsed = some ms) :
    (ccEnabled = false → ∃ g c hi me t,
      parseMapOfMap false Gauge parsed.gauges = some g ∧
      parseMapOfMap false Counter parsed.counters = some c ∧
      parseMapOfMap false Gauge parsed.histograms = some hi ∧
      parseMapOfMap false Gauge parsed.meters = some me ∧
      parseMapOfMap false Gauge parsed.timers = some t ∧
      ms = addToAll g [("type", "gauge")] ++
        addToAll c [("type", "counter")] ++
        addToAll hi [("type", "histogram")] ++
        addToAll me [("type", "meter")] ++
        addToAll t [("type", "timer")] ∧
      (∀ m ∈ addToAll g [("type", "gauge")],
        getDim m "type" = some "gauge") ∧
      (∀ m ∈ addToAll c [("type", "counter")],
        getDim m "type" = some "counter") ∧
      (∀ m ∈ addToAll hi [("type", "histogram")],
        getDim m "type" = some "histogram") ∧
      (∀ m ∈ addToAll me [("type", "meter")],
        getDim m "type" = some "meter") ∧
      (∀ m ∈ addToAll t [("type", "timer")],
        getDim m "type" = some "timer")) ∧
    (ccEnabled = true → ∃ g c hi me t,
      parseMapOfMap true Gauge parsed.gauges = some g ∧
      parseMapOfMap true Counter parsed.counters = some c ∧
      parseMapOfMap true Gauge parsed.histograms = some hi ∧
      parseMapOfMap true Gauge parsed.meters = some me ∧
      parseMapOfMap true Gauge parsed.timers = some t ∧
      ms = g ++ c ++ hi ++ me ++ t) := by
  rw [extractParsedMetric] at h
  cases hg : parseMapOfMap ccEnabled Gauge parsed.gauges with
  | none => rw [hg] at h; cases h
  | some g =>
  cases hc : parseMapOfMap ccEnabled Counter parsed.counters with
  | none => rw [hg, hc] at h; cases h
  | some c =>
  cases hh : parseMapOfMap ccEnabled Gauge parsed.histograms with
  | none => rw [hg, hc, hh] at h; cases h
  | some hi =>
  cases hm : parseMapOfMap ccEnabled Gauge parsed.meters with
  | none => rw [hg, hc, hh, hm] at h; cases h
  | some me =>
  cases ht : parseMapOfMap ccEnabled Gauge parsed.timers with
  | none => rw [hg, hc, hh, hm, ht] at h; cases h
  | some t =>
  rw [hg, hc, hh, hm, ht] at h
  constructor
  · rintro rfl
    replace h : addToAll g [("type", "gauge")] ++
        addToAll c [("type", "counter")] ++
        addToAll hi [("type", "histogram")] ++
        addToAll me [("type", "meter")] ++
        addToAll t [("type", "timer")] = ms := by
      simpa using h
    exact ⟨g, c, hi, me, t, hg, hc, hh, hm, ht, h.symm,
      fun m hmem => getDim_addToAll _ _ _ _ hmem,
      fun m hmem => getDim_addToAll _ _ _ _ hmem,
      fun m hmem => getDim_addToAll _ _ _ _ hmem,
      fun m hmem => getDim_addToAll _ _ _ _ hmem,
      fun m hmem => getDim_addToAll _ _ _ _ hmem⟩
  · rintro rfl
    refine ⟨g, c, hi, me, t, hg, hc, hh, hm, ht, ?_⟩
    replace h : g ++ c ++ hi ++ me ++ t = ms := by simpa using h
    exact h.symm

/-- Witness for C4 at one-gauge documents: with the mode inactive the
output is the gauge batch stamped with its own family's `type`
dimension, and with the mode active it is the unstamped gauge batch. -/
theorem c4_type_stamp_all_or_nothing_witness :
    (∃ g c hi me t,
      parseMapOfMap false Gauge [("foo", [("value", GoVal.vfloat 1)])] =
        some g ∧
      parseMapOfMap false Counter [] = some c ∧
      parseMapOfMap false Gauge [] = some hi ∧
      parseMapOfMap false Gauge [] = some me ∧
      parseMapOfMap false Gauge [] = some t ∧
      [{ name := "foo", metricType := Gauge, value := 1,
         dimensions := [("rollup", "value"), ("type", "gauge")] }] =
        addToAll g [("type", "gauge")] ++
        addToAll c [("type", "counter")] ++
        addToAll hi [("type", "histogram")] ++
        addToAll me [("type", "meter")] ++
        addToAll t [("type", "timer")] ∧
      (∀ m ∈ addToAll g [("type", "gauge")],
        getDim m "type" = some "gauge") ∧
      (∀ m ∈ addToAll c [("type", "counter")],
        getDim m "type" = some "counter") ∧
      (∀ m ∈ addToAll hi [("type", "histogram")],
        getDim m "type" = some "histogram") ∧
      (∀ m ∈ addToAll me [("type", "meter")],
        getDim m "type" = some "meter") ∧
      (∀ m ∈ addToAll t [("type", "timer")],
        getDim m "type" = some "timer")) ∧
    (∃ g c hi me t,
      parseMapOfMap true Gauge [("foo", [("value", GoVal.vfloat 1)])] =
        some g ∧
      parseMapOfMap true Counter [] = some c ∧
      parseMapOfMap true Gauge [] = some hi ∧
      parseMapOfMap true Gauge [] = some me ∧
      parseMapOfMap true Gauge [] = some t ∧
      [{ name := "foo", metricType := Gauge, value := 1,
         dimensions := [("rollup", "value")] }] =
        g ++ c ++ hi ++ me ++ t) := by
  constructor
  · exact (c4_type_stamp_all_or_nothing false
        { gauges := [("foo", [("value", GoVal.vfloat 1)])], counters := [],
          histograms := [], meters := [], timers := [] }
        [{ name := "foo", metricType := Gauge, value := 1,
           dimensions := [("rollup", "value"), ("type", "gauge")] }]
        rfl).1 rfl
  · exact (c4_type_stamp_all_or_nothing true
        { gauges := [("foo", [("value", GoVal.vfloat 1)])], counters := [],
          histograms := [], meters := [], timers := [] }
        [{ name := "foo", metricType := Gauge, value := 1,
           dimensions := [("rollup", "value")] }]
        rfl).2 rfl

/-- C8: for every failure of the secondary worker-stats fetch (transport
or HTTP error, or a body `parseUWSGIWorkersStats` rejects: missing or
malformed `workers` array, element without a string `status`),
`tryFetchUWSGIWorkersStats` contributes no records (`none`), logs only at
info level, and the subsequent emission path of `queryService` behaves
exactly as if no secondary fetch had run: the primary batch is tagged
with `service` and `port` and emitted unchanged. -/
theorem c8_secondary_failure_harmless (queryResult : Except String GoVal)
    (metrics : List Metric) (serviceName : String) (port : ℤ)
    (keep : Metric → Bool)
    (h : secondaryFetchFails queryResult = true) :
    (tryFetchUWSGIWorkersStats queryResult).1 = none ∧
    (tryFetchUWSGIWorkersStats queryResult).2 ≠ [] ∧
    (∀ entry ∈ (tryFetchUWSGIWorkersStats queryResult).2,
      entry.1 = LogLevel.info) ∧
    queryServiceEmit metrics true (tryFetchUWSGIWorkersStats queryResult).1
        serviceName port keep =
      queryServiceEmit metrics false none serviceName port keep ∧
    queryServiceEmit metrics true (tryFetchUWSGIWorkersStats queryResult).1
        serviceName port keep =
      some ((addToAll metrics [("service", serviceName),
        ("port", toString port)]).filter keep) := by
  have hfetch : ∃ logs, tryFetchUWSGIWorkersStats queryResult = (none, logs) ∧
      logs ≠ [] ∧ ∀ entry ∈ logs, entry.1 = LogLevel.info := by
    cases queryResult with
    | error e => exact ⟨_, rfl, by simp, by simp⟩
    | ok body =>
        rw [secondaryFetchFails] at h
        rcases hpb : parseUWSGIWorkersStats body with ⟨ms, oe⟩
        cases oe with
        | none => rw [hpb] at h; simp at h
        | some e =>
            have hfe : tryFetchUWSGIWorkersStats (Except.ok body) =
                (none, [(LogLevel.info,
                  "No workers stats retreived: " ++ e)]) := by
              simp [tryFetchUWSGIWorkersStats, hpb]
            exact ⟨_, hfe, by simp, by simp⟩
  obtain ⟨logs, hfe, hne, hinfo⟩ := hfetch
  rw [hfe]
  exact ⟨rfl, hne, hinfo, rfl, rfl⟩

/-- Witness for C8 at a concrete transport error: no records, a non-empty
info-level log, and the empty primary batch emitted exactly as without
the secondary fetch. -/
theorem c8_secondary_failure_harmless_witness :
    (tryFetchUWSGIWorkersStats (Except.error "connection refused")).1 = none ∧
    (tryFetchUWSGIWorkersStats (Except.error "connection refused")).2 ≠ [] ∧
    (∀ entry ∈ (tryFetchUWSGIWorkersStats
        (Except.error "connection refused")).2,
      entry.1 = LogLevel.info) ∧
    queryServiceEmit [] true
        (tryFetchUWSGIWorkersStats (Except.error "connection refused")).1
        "svc" 9000 (fun _ => true) =
      queryServiceEmit [] false none "svc" 9000 (fun _ => true) ∧
    queryServiceEmit [] true
        (tryFetchUWSGIWorkersStats (Except.error "connection refused")).1
        "svc" 9000 (fun _ => true) =
      some ((addToAll [] [("service", "svc"),
        ("port", toString (9000 : ℤ))]).filter (fun _ => true)) :=
  c8_secondary_failure_harmless (Except.error "connection refused") []
    "svc" 9000 (fun _ => true) rfl

/-- Registry scan after a registry write. -/
theorem find?_regSet (k : String) (v : ℤ) :
    ∀ (r : List (String × ℤ)) (m : String),
      (regSet r k v).find? (fun p => p.1 == m) =
        if m = k then some (k, v) else r.find? (fun p => p.1 == m)
  | [], m => by
      by_cases hm : m = k
      · simp [regSet, List.find?_cons, hm]
      · simp [regSet, List.find?_cons, hm, Ne.symm hm]
  | (k1, v1) :: rest, m => by
      by_cases hk : k1 = k
      · subst hk
        by_cases hm : m = k1
        · simp [regSet, List.find?_cons, hm]
        · simp [regSet, List.find?_cons, hm, Ne.symm hm]
      · by_cases h1 : k1 = m
        · have hm : ¬(m = k) := fun he => hk (h1.trans he)
          simp [regSet, List.find?_cons, hk, h1, hm]
        · simp [regSet, List.find?_cons, hk, h1,
            find?_regSet k v rest m]

/-- Registry read after a registry write. -/
theorem regLookup_regSet (k : String) (v : ℤ)
    (r : List (String × ℤ)) (m : String) :
    regLookup (regSet r k v) m = if m = k then some v else regLookup r m := by
  rw [regLookup, find?_regSet]
  by_cases hm : m = k
  · simp [hm]
  · simp [hm, regLookup]

/-- Registry read after one worker's seed-and-increment step. -/
theorem regLookup_regIncr (r : List (String × ℤ)) (name m : String) :
    regLookup (regIncr r name) m =
      if m = name then some ((regLookup r name).getD 0 + 1)
      else regLookup r m := by
  rw [regIncr, regLookup_regSet]

/-- The worker loop on a list of well-formed workers never fails and
folds the seed-and-increment step over the statuses. -/
theorem countWorkersLoop_map (statuses : List String) :
    ∀ R : List (String × ℤ),
      countWorkersLoop (statuses.map mkWorker) R =
        Except.ok (statuses.foldl
          (fun r s => regIncr r (statusCounterName s)) R) := by
  induction statuses with
  | nil => intro R; rfl
  | cons s rest ih =>
      intro R
      simp only [List.map_cons, List.foldl_cons]
      exact ih (regIncr R (statusCounterName s))

/-- Closed form of the registry after the whole worker loop: each counter
holds its seed plus the number of statuses tallied under it, and a
counter appears only when seeded or hit at least once. -/
theorem foldIncr_regLookup (statuses : List String) :
    ∀ (R : List (String × ℤ)) (m : String),
      regLookup (statuses.foldl
          (fun r s => regIncr r (statusCounterName s)) R) m =
        if (regLookup R m).isSome ∨
            0 < (statuses.filter
              (fun s => statusCounterName s == m)).length then
          some ((regLookup R m).getD 0 +
            ((statuses.filter
              (fun s => statusCounterName s == m)).length : ℤ))
        else none := by
  induction statuses with
  | nil =>
      intro R m
      cases hR : regLookup R m <;> simp [hR]
  | cons s rest ih =>
      intro R m
      simp only [List.foldl_cons]
      rw [ih]
      by_cases hm : statusCounterName s = m
      · have hfc : (List.filter (fun s => statusCounterName s == m)
            (s :: rest)).length =
            (List.filter (fun s => statusCounterName s == m) rest).length
              + 1 := by
          simp [List.filter_cons, hm]
        have hinc : regLookup (regIncr R (statusCounterName s)) m =
            some ((regLookup R m).getD 0 + 1) := by
          rw [regLookup_regIncr, if_pos hm.symm, hm]
        rw [hinc, hfc]
        cases hR : regLookup R m <;>
          · simp [hR]
            ring
      · have hfc : List.filter (fun s => statusCounterName s == m)
            (s :: rest) =
            List.filter (fun s => statusCounterName s == m) rest := by
          simp [List.filter_cons, hm]
        have hinc : regLookup (regIncr R (statusCounterName s)) m =
            regLookup R m := by
          rw [regLookup_regIncr, if_neg (fun he => hm he.symm)]
        rw [hinc, hfc]

/-- Rendering the registry as records preserves per-name lookup. -/
theorem lookupMetricValue_map (reg : List (String × ℤ)) (name : String) :
    lookupMetricValue (reg.map (fun p => withValue p.1 (p.2 : ℚ))) name =
      (regLookup reg name).map (fun z => (z : ℚ)) := by
  induction reg with
  | nil => rfl
  | cons p rest ih =>
      by_cases hp : p.1 = name <;>
        simp_all [lookupMetricValue, regLookup, List.find?_cons, withValue,
          metricNew, hp]

/-- C7: the worker-stats body with statuses `idle`, `sig30`, `idle`
yields exactly the counters `IdleWorkers = 2`, `BusyWorkers = 1` and
`SigWorkers = 1`; in general, on any list of well-formed workers the
parse succeeds and each counter holds its pre-seeded base
(`IdleWorkers = 0`, `BusyWorkers = 1`) plus one increment per element
whose collapsed, title-cased status maps to it, other counters being
present exactly when hit at least once. -/
theorem c7_worker_status_counts :
    (parseUWSGIWorkersStats (GoVal.vobj [("workers", GoVal.varr
        [mkWorker "idle", mkWorker "sig30", mkWorker "idle"])]) =
      ([withValue "IdleWorkers" 2, withValue "BusyWorkers" 1,
        withValue "SigWorkers" 1], none)) ∧
    (∀ (statuses : List String) (name : String),
      (parseUWSGIWorkersStats (GoVal.vobj
          [("workers", GoVal.varr (statuses.map mkWorker))])).2 = none ∧
      lookupMetricValue (parseUWSGIWorkersStats (GoVal.vobj
          [("workers", GoVal.varr (statuses.map mkWorker))])).1 name =
        (if name = "BusyWorkers" then
          some (1 + ((statuses.filter
            (fun s => statusCounterName s == name)).length : ℚ))
         else if name = "IdleWorkers" then
          some ((statuses.filter
            (fun s => statusCounterName s == name)).length : ℚ)
         else if (statuses.filter
            (fun s => statusCounterName s == name)).length = 0 then none
         else some ((statuses.filter
            (fun s => statusCounterName s == name)).length : ℚ))) := by
  constructor
  · decide
  · intro statuses name
    have hstep : parseUWSGIWorkersStats (GoVal.vobj
        [("workers", GoVal.varr (statuses.map mkWorker))]) =
        ((statuses.foldl (fun r s => regIncr r (statusCounterName s))
            [("IdleWorkers", 0), ("BusyWorkers", 1)]).map
          (fun p => withValue p.1 (p.2 : ℚ)), none) := by
      have hun : parseUWSGIWorkersStats (GoVal.vobj
          [("workers", GoVal.varr (statuses.map mkWorker))]) =
          (match countWorkersLoop (statuses.map mkWorker)
              [("IdleWorkers", 0), ("BusyWorkers", 1)] with
           | .ok registry =>
              (registry.map (fun p => withValue p.1 (p.2 : ℚ)), none)
           | .error e => ([], some e)) := rfl
      rw [hun, countWorkersLoop_map]
    rw [hstep]
    refine ⟨rfl, ?_⟩
    rw [lookupMetricValue_map, foldIncr_regLookup]
    by_cases hb : name = "BusyWorkers"
    · subst hb
      have hR : regLookup [("IdleWorkers", 0), ("BusyWorkers", 1)]
          "BusyWorkers" = some 1 := rfl
      rw [hR]
      simp
    · by_cases hi : name = "IdleWorkers"
      · subst hi
        have hR : regLookup [("IdleWorkers", 0), ("BusyWorkers", 1)]
            "IdleWorkers" = some 0 := rfl
        rw [hR]
        simp [hb]
      · have hR : regLookup [("IdleWorkers", 0), ("BusyWorkers", 1)]
            name = none := by
          simp [regLookup, List.find?_cons, Ne.symm hi, Ne.symm hb,
            List.find?_eq_none]
        rw [hR]
        rcases Nat.eq_zero_or_pos (statuses.filter
            (fun s => statusCounterName s == name)).length with hz | hz
        · simp [hz, hb, hi]
        · simp [hz, hb, hi, Nat.pos_iff_ne_zero.mp hz]

end Fullerite
